import Mathlib

/-!
Verification development for the go-compose lifecycle orchestration engine
(repository keon94/go-compose).

The Go sources are shallowly embedded as Lean definitions:
* pure logic (status derivation, endpoint selection) becomes pure functions;
* effectful calls (docker inspect/list, handler closures, the external compose
  process) are supplied by explicit "world" records, so every operation is a
  deterministic function of its inputs and the world;
* the concurrent `awaitState` coordinator is modelled as a small labelled
  transition system over goroutine phases, with nondeterminism expressed by
  the choice of interleaving (the step relation), and its properties proved
  for all reachable states;
* Go runtime panics (out-of-range indexing) are modelled with `Option`:
  `none` marks an input on which the Go function does not return;
* `time.Duration` values are `Int` (nanoseconds): the subtractions in the
  sources can go negative, and `Int` keeps that behavior.
-/

namespace GoCompose

/-! ## Container status layer (src/docker/container.go, src/unnamed/part_004) -/

/-- Structured stand-ins for the `error` values the Go code builds with
`fmt.Errorf` / returns from the docker client.  Keeping them structured (rather
than formatted strings) preserves exactly the data the source puts into each
error. -/
inductive Err where
  /-- `ContainerInspect` itself failed (rule precedence step 1 of `GetStatus`). -/
  | inspectFailed (msg : String)
  /-- "container %s exited with error code %d. details: %s" -/
  | exitCodeErr (cname : String) (code : Int) (details : String)
  /-- "unhealthy status for container %s. exit code: %d, health-check output: %s" -/
  | unhealthyCheck (cname : String) (checkExit : Int) (output : String)
  /-- `ContainerList` failed inside `GetContainer`. -/
  | listFailed (msg : String)
  /-- "Returned incorrect count of containers for service " + service -/
  | tooManyContainers (sname : String)
  /-- "error getting container for %s: %w" (wrap added by the await loops). -/
  | wrapLookup (sname : String) (e : Err)
  /-- "service %s startup timed out" -/
  | startTimedOut (sname : String)
  /-- "service %s shutdown timed out" -/
  | stopTimedOut (sname : String)
  deriving DecidableEq, Repr

/-- `ContainerStatusCode` from src/docker/utils.go (constructor names as in the
Go const block). -/
inductive ContainerStatusCode where
  | Error
  | Running
  | Exited
  | Unhealthy
  | NotReady
  deriving DecidableEq, Repr

/-- `ContainerStatus` struct: an optional diagnostic error plus a code. -/
structure ContainerStatus where
  Error : Option Err
  Code : ContainerStatusCode
  deriving DecidableEq, Repr

/-- One entry of `inspection.State.Health.Log`. -/
structure HealthLogEntry where
  ExitCode : Int
  Output : String
  deriving DecidableEq, Repr

/-- `inspection.State.Health`. -/
structure HealthState where
  Status : String
  Log : List HealthLogEntry
  deriving DecidableEq, Repr

/-- The fields of `inspection.State` read by `GetStatus`.  `StateError` is the
`State.Error` string field of the docker API. -/
structure InspectState where
  Running : Bool
  ExitCode : Int
  Status : String
  StateError : String
  Health : Option HealthState
  deriving DecidableEq, Repr

/-- An inspection outcome: `Except.error` models `ContainerInspect` returning a
non-nil error, `Except.ok` a successful inspection. -/
abbrev Inspection := Except String InspectState

/-- `strings.ToLower`, written character by character so that it evaluates by
reduction (all status strings involved are ASCII, where this agrees with Go's
Unicode lowering). -/
def lowerString (s : String) : String := ⟨s.data.map Char.toLower⟩

/-- `Container.GetStatus` (src/docker/container.go:23-69, identical copy in
src/unnamed/part_004's sibling file).  Translated branch for branch.  The result
is `none` exactly when the Go code panics: in the final branch it evaluates
`checks[len(checks)-1]`, which is an out-of-range index when the health log is
empty, so no `ContainerStatus` is returned there. -/
def getStatus (cname : String) (insp : Inspection) : Option ContainerStatus :=
  match insp with
  | .error e => some { Error := some (.inspectFailed e), Code := .Error }
  | .ok st =>
    if st.Running = false then
      if st.ExitCode ≠ 0 then
        some { Error := some (.exitCodeErr cname st.ExitCode st.StateError), Code := .Error }
      else if lowerString st.Status = "exited" then
        some { Error := none, Code := .Exited }
      else
        some { Error := none, Code := .NotReady }
    else
      match st.Health with
      | none => some { Error := none, Code := .Running }
      | some h =>
        if lowerString h.Status = "healthy" then
          some { Error := none, Code := .Running }
        else if lowerString h.Status ≠ "unhealthy" then
          some { Error := none, Code := .NotReady }
        else
          match h.Log.getLast? with
          | none => none
          | some chk =>
            some { Error := some (.unhealthyCheck cname chk.ExitCode chk.Output),
                   Code := .Unhealthy }

/-- The status derivation exactly as the specification's §4.4 precedence list
words it, amended only where the counterexample forces it: rule (8) produces
`Unhealthy` with the diagnostic drawn from the most recent health-check log
entry only when that log is non-empty; on an empty log the implementation does
not return a status (it faults), which the `none` result records. -/
def getStatusSpec (cname : String) (insp : Inspection) : Option ContainerStatus :=
  match insp with
  | .error e =>
    -- (1) inspection call itself fails → Error
    some { Error := some (.inspectFailed e), Code := .Error }
  | .ok st =>
    if st.Running = false ∧ st.ExitCode ≠ 0 then
      -- (2) not running and non-zero exit code → Error (even if status reads "exited")
      some { Error := some (.exitCodeErr cname st.ExitCode st.StateError), Code := .Error }
    else if st.Running = false ∧ lowerString st.Status = "exited" then
      -- (3) not running and status string is "exited" → Exited
      some { Error := none, Code := .Exited }
    else if st.Running = false then
      -- (4) not running otherwise → NotReady
      some { Error := none, Code := .NotReady }
    else if st.Health = none then
      -- (5) running with no health check configured → Running
      some { Error := none, Code := .Running }
    else
      match st.Health with
      | none => some { Error := none, Code := .Running }
      | some h =>
        if lowerString h.Status = "healthy" then
          -- (6) running with health status "healthy" → Running
          some { Error := none, Code := .Running }
        else if lowerString h.Status ≠ "unhealthy" then
          -- (7) running with health status neither "healthy" nor "unhealthy" → NotReady
          some { Error := none, Code := .NotReady }
        else
          -- (8) running and "unhealthy" → Unhealthy from the latest log entry,
          -- provided the health log is non-empty
          match h.Log.getLast? with
          | none => none
          | some chk =>
            some { Error := some (.unhealthyCheck cname chk.ExitCode chk.Output),
                   Code := .Unhealthy }

/-- A simulated inspection of a running container whose health status is
"unhealthy" while its health log is empty. -/
def unhealthyNoLogInspection : Inspection :=
  .ok { Running := true, ExitCode := 0, Status := "running", StateError := "",
        Health := some { Status := "unhealthy", Log := [] } }

/-! ## Per-service polling loops (src/unnamed/part_004: awaitStart, awaitStop)

Each loop iteration calls `Compose.GetContainer` and inspects the result.  One
iteration's observation is a `PollObs`; a whole run of the loop consumes a list
of observations.  The deadline (`timeout` channel) is modelled by the end of
the list: the `select` falls into its `default`/sleep branch as long as more
observations are available, and the timer case fires once they run out. -/

/-- What one `GetContainer` + `GetStatus` round trip yields to a polling loop:
the lookup errored, found no container, or found one with the given status. -/
inductive PollObs where
  | failed (e : Err)
  | missing
  | found (st : ContainerStatus)
  deriving DecidableEq, Repr

/-- Outcome of one loop-body iteration: the loop returns (with `none` for a nil
error, i.e. convergence), or falls through to the `select`, sleeping the given
number of milliseconds before re-polling. -/
inductive PollStep where
  | finish (r : Option Err)
  | retry (sleepMs : ℕ)
  deriving DecidableEq, Repr

/-- The fixed re-poll interval: `time.Sleep(500 * time.Millisecond)`. -/
def pollIntervalMs : ℕ := 500

/-- Body of one iteration of `Compose.awaitStart` (src/unnamed/part_004:206-232):
a lookup error returns it wrapped; no container falls through to the sleep; a
status with a non-nil `Error` field is returned as the failure; a status whose
code is neither `Unhealthy` nor `NotReady` returns nil (converged); otherwise
the loop falls through to the sleep. -/
def awaitStartStep (sname : String) (o : PollObs) : PollStep :=
  match o with
  | .failed e => .finish (some (.wrapLookup sname e))
  | .missing => .retry pollIntervalMs
  | .found st =>
    match st.Error with
    | some e => .finish (some e)
    | none =>
      if st.Code = .Unhealthy ∨ st.Code = .NotReady then .retry pollIntervalMs
      else .finish none

/-- Body of one iteration of `Compose.awaitStop` (src/unnamed/part_004:234-261):
absence of the container returns nil immediately; a status error is returned;
any non-`Running` code returns nil; `Running` falls through to the sleep. -/
def awaitStopStep (sname : String) (o : PollObs) : PollStep :=
  match o with
  | .failed e => .finish (some (.wrapLookup sname e))
  | .missing => .finish none
  | .found st =>
    match st.Error with
    | some e => .finish (some e)
    | none =>
      if st.Code ≠ .Running then .finish none
      else .retry pollIntervalMs

/-- `Compose.awaitStart` over a finite observation stream; exhausting the
stream is the deadline firing, which returns "service %s startup timed out". -/
def awaitStart (sname : String) : List PollObs → Option Err
  | [] => some (.startTimedOut sname)
  | o :: rest =>
    match awaitStartStep sname o with
    | .finish r => r
    | .retry _ => awaitStart sname rest

/-- `Compose.awaitStop` over a finite observation stream; exhausting the stream
is the deadline firing, which returns "service %s shutdown timed out". -/
def awaitStop (sname : String) : List PollObs → Option Err
  | [] => some (.stopTimedOut sname)
  | o :: rest =>
    match awaitStopStep sname o with
    | .finish r => r
    | .retry _ => awaitStop sname rest

/-- Statuses that `GetStatus` can actually produce: the `Error` and `Unhealthy`
codes always carry a non-nil error, the other codes never do. -/
def producible (st : ContainerStatus) : Bool :=
  match st.Code with
  | .Error => st.Error.isSome
  | .Unhealthy => st.Error.isSome
  | _ => st.Error.isNone

/-! ## The `awaitState` coordinator (src/unnamed/part_004:178-204)

`awaitState` launches one goroutine per service running `serviceFn` (one of the
loops above), an extra goroutine that waits on the `sync.WaitGroup` pool, and
then performs a single receive on the unbuffered channel `waiter`.

We model it as a labelled transition system.  The per-service loop results are
abstracted into `o : ℕ → Option Err` (`none` = the loop returned nil).  Each
failing goroutine must store its error into `errorMap` (`storeErr`), then
rendezvous with the coordinator's receive (`sendErr` — only possible while the
coordinator is still receiving, since `waiter` is unbuffered and received from
exactly once), then mark the pool (`doneErr`).  A succeeding goroutine just
marks the pool (`doneOk`).  The pool goroutine can rendezvous instead once
every worker is done (`poolDone`).  After its single receive the coordinator
reads `errorMap` and returns (`mainReturn`); the snapshot it reads is the list
of stores that happened before that moment. -/

/-- Phase of one per-service goroutine. -/
inductive GoPhase where
  | looping   -- still inside `serviceFn`
  | stored    -- failed and stored its error into `errorMap`
  | sent      -- its `waiter <- nil` send was received by the coordinator
  | done      -- executed `pool.Done()`
  deriving DecidableEq, Repr

/-- Phase of the coordinating caller of `awaitState`. -/
inductive MainPhase where
  | receiving                 -- blocked on `<-waiter`
  | reading                   -- received; about to read `errorMap`
  | returned (agg : List ℕ)   -- returned, having read this error snapshot
  deriving DecidableEq, Repr

/-- Global state of one `awaitState` call with goroutines indexed `0..n-1`:
per-goroutine phases, whether the pool-waiter goroutine has had its send
received, the indexes currently stored in `errorMap` (in store order), and the
coordinator phase. -/
structure PollerState where
  go : ℕ → GoPhase
  poolSent : Bool
  stored : List ℕ
  main : MainPhase

/-- Pointwise update of a goroutine-phase assignment. -/
def updGo (f : ℕ → GoPhase) (i : ℕ) (p : GoPhase) : ℕ → GoPhase :=
  fun j => if j = i then p else f j

/-- Interleaving steps of the `awaitState` transition system for `n` services
with loop results `o`. -/
inductive PollerStep (n : ℕ) (o : ℕ → Option Err) : PollerState → PollerState → Prop where
  /-- A failing goroutine executes `errorMap.Store(service.Name, err)`. -/
  | storeErr {s : PollerState} {i : ℕ} :
      i < n → o i ≠ none → s.go i = .looping →
      PollerStep n o s { s with go := updGo s.go i .stored, stored := s.stored ++ [i] }
  /-- A failing goroutine's `waiter <- nil` rendezvouses with the coordinator's
  single `<-waiter` receive. -/
  | sendErr {s : PollerState} {i : ℕ} :
      i < n → s.go i = .stored → s.main = .receiving →
      PollerStep n o s { s with go := updGo s.go i .sent, main := .reading }
  /-- A failing goroutine executes `pool.Done()` (only after its send went
  through). -/
  | doneErr {s : PollerState} {i : ℕ} :
      i < n → s.go i = .sent →
      PollerStep n o s { s with go := updGo s.go i .done }
  /-- A succeeding goroutine skips the error branch and executes `pool.Done()`. -/
  | doneOk {s : PollerState} {i : ℕ} :
      i < n → o i = none → s.go i = .looping →
      PollerStep n o s { s with go := updGo s.go i .done }
  /-- The pool goroutine's `pool.Wait()` completes (every worker done) and its
  `waiter <- nil` rendezvouses with the coordinator. -/
  | poolDone {s : PollerState} :
      (∀ i, i < n → s.go i = .done) → s.poolSent = false → s.main = .receiving →
      PollerStep n o s { s with poolSent := true, main := .reading }
  /-- The coordinator reads `errorMap` (IsEmpty / PrintMap) and returns. -/
  | mainReturn {s : PollerState} :
      s.main = .reading →
      PollerStep n o s { s with main := .returned s.stored }

/-- Initial state of an `awaitState` call. -/
def pollerInit : PollerState :=
  { go := fun _ => .looping, poolSent := false, stored := [], main := .receiving }

/-- States an `awaitState` call can reach under some interleaving. -/
def PollerReach (n : ℕ) (o : ℕ → Option Err) (s : PollerState) : Prop :=
  Relation.ReflTransGen (PollerStep n o) pollerInit s

/-- Inductive invariant of the `awaitState` transition system. -/
def PollerInv (n : ℕ) (o : ℕ → Option Err) (s : PollerState) : Prop :=
  (∀ i, i ∈ s.stored ↔ (i < n ∧ o i ≠ none ∧ s.go i ≠ .looping)) ∧
  (∀ i, (s.go i = .stored ∨ s.go i = .sent) → o i ≠ none) ∧
  (s.main ≠ .receiving →
    (s.poolSent = true ∨ ∃ j, j < n ∧ o j ≠ none ∧ (s.go j = .sent ∨ s.go j = .done))) ∧
  (s.poolSent = true → ∀ i, i < n → s.go i = .done) ∧
  (∀ agg, s.main = .returned agg →
    ((agg = [] → (∀ i, i < n → o i = none) ∧ (∀ i, i < n → s.go i = .done)) ∧
     (∀ i, i ∈ agg → i < n ∧ o i ≠ none)))

/-! ## Compose driver layer (src/unnamed/part_004)

The external `docker-compose` process and the per-service polling loops are
effectful; an `OpWorld` supplies their outcomes.  `runOk` gives the process
result as a function of the timeout `runCommand` is invoked with, and each
loop's outcome is a function of the poll deadline `awaitState` is handed —
exactly the two places the operation's timeout configuration flows into. -/

/-- `EnvironmentConfig` (src/unnamed/part_004:26-40).  Durations are `Int`
nanoseconds. -/
structure EnvironmentConfig where
  UpTimeout : Int
  DownTimeout : Int
  ComposeFilePaths : List String
  Label : String
  NoCleanup : Bool
  NoShutdown : Bool
  deriving DecidableEq, Repr

/-- The managed part of `Compose`: its config and the key set of
`config.Services` (service names).  Map iteration order is abstracted as list
order; `NewCompose` and `addServiceConfigs` keep the list duplicate-free, as
map keys are. -/
structure ComposeState where
  Env : EnvironmentConfig
  Services : List String
  deriving DecidableEq, Repr

/-- Effect outcomes available to one compose operation. -/
structure OpWorld where
  /-- Result of `runCommand(cmd, t)` given the enforced timeout `t`. -/
  runOk : Int → Bool
  /-- Wall-clock time (ns) the process invocation took (`time.Since(startTime)`). -/
  elapsed : Int
  /-- Outcome of service `s`'s `awaitStart` loop, given the deadline handed to
  `awaitState`. -/
  startLoop : String → Int → Option Err
  /-- Outcome of service `s`'s `awaitStop` loop, given the deadline handed to
  `awaitState`. -/
  stopLoop : String → Int → Option Err

/-- Failures of one compose operation as observed by the Environment layer
(part_002 only ever branches on `err != nil`; the aggregate inside the
convergence error is interleaving-dependent and settled by the `PollerStep`
model above). -/
inductive OpErr where
  | procFailed (op : String)
  | convergeFailed (op : String)
  deriving DecidableEq, Repr

/-- `Compose.addServiceConfigs` (src/unnamed/part_004:291-295): map assignment
keyed by name — existing keys keep their place, new ones are added. -/
def addServiceConfigs (c : ComposeState) (names : List String) : ComposeState :=
  { c with
    Services := names.foldl (fun acc nm => if nm ∈ acc then acc else acc ++ [nm]) c.Services }

/-- `Compose.Up` (src/unnamed/part_004:82-98): run
`up -d --renew-anon-volumes` under `UpTimeout`, then poll the full managed set
with `awaitStart` under the remaining budget `UpTimeout - elapsed`. -/
def composeUp (c : ComposeState) (w : OpWorld) : Except OpErr Unit :=
  if w.runOk c.Env.UpTimeout = false then .error (.procFailed "up")
  else
    let budget := c.Env.UpTimeout - w.elapsed
    if c.Services.all (fun s => (w.startLoop s budget).isNone)
    then .ok () else .error (.convergeFailed "up")

/-- `Compose.Start` (src/unnamed/part_004:100-120): no-op on an empty list;
otherwise merge the new configs, run `up -d` for the named subset under
`UpTimeout`, then poll only that subset under `UpTimeout - elapsed`.  Returns
the updated managed set together with the result. -/
def composeStart (c : ComposeState) (w : OpWorld) (services : List String) :
    ComposeState × Except OpErr Unit :=
  if services = [] then (c, .ok ())
  else
    let c2 := addServiceConfigs c services
    if w.runOk c.Env.UpTimeout = false then (c2, .error (.procFailed "up"))
    else
      let budget := c.Env.UpTimeout - w.elapsed
      if services.all (fun s => (w.startLoop s budget).isNone)
      then (c2, .ok ()) else (c2, .error (.convergeFailed "up"))

/-- `Compose.getServiceConfigs` (src/unnamed/part_004:297-313): with no names
given it returns every managed config (`len(services) == 0 || contains(...)`),
otherwise the managed configs whose names are among those requested.  `Up` and
`Down` call it with no names, so their embeddings below poll `c.Services`
directly. -/
def getServiceConfigs (c : ComposeState) (names : List String) : List String :=
  if names = [] then c.Services
  else c.Services.filter (fun s => names.contains s)

/-- `Compose.Stop` (src/unnamed/part_004:122-137): run `rm -s -f names` under
`DownTimeout`, then poll `getServiceConfigs(names...)` — all managed services
when `names` is empty, else the managed names among `names` — with `awaitStop`,
under the budget `UpTimeout - elapsed`, as written at part_004:131. -/
def composeStop (c : ComposeState) (w : OpWorld) (names : List String) : Except OpErr Unit :=
  if w.runOk c.Env.DownTimeout = false then .error (.procFailed "stop")
  else
    let budget := c.Env.UpTimeout - w.elapsed
    if (getServiceConfigs c names).all (fun s => (w.stopLoop s budget).isNone)
    then .ok () else .error (.convergeFailed "stop")

/-- `Compose.Down` (src/unnamed/part_004:139-153): run `down -v` under
`DownTimeout`, then poll the full managed set with `awaitStop` — under the
budget `UpTimeout - elapsed`, as written at part_004:147. -/
def composeDown (c : ComposeState) (w : OpWorld) : Except OpErr Unit :=
  if w.runOk c.Env.DownTimeout = false then .error (.procFailed "down")
  else
    let budget := c.Env.UpTimeout - w.elapsed
    if c.Services.all (fun s => (w.stopLoop s budget).isNone)
    then .ok () else .error (.convergeFailed "down")

/-- What the C4 claim predicts `Compose.Down` computes: the same operation with
the poll budget drawn from the Down ceiling (`DownTimeout - elapsed`). -/
def composeDownClaimed (c : ComposeState) (w : OpWorld) : Except OpErr Unit :=
  if w.runOk c.Env.DownTimeout = false then .error (.procFailed "down")
  else
    let budget := c.Env.DownTimeout - w.elapsed
    if c.Services.all (fun s => (w.stopLoop s budget).isNone)
    then .ok () else .error (.convergeFailed "down")

/-! ## Environment layer (src/unnamed/part_002) -/

/-- `ServiceEntry` (src/unnamed/part_002:16-32).  The caller-supplied closures
(`Handler`, `Before`, `After`) are opaque; the entry records which are non-nil
and their outcomes come from the world. -/
structure ServiceEntry where
  Name : String
  DisableShutdownLogs : Bool
  HasHandler : Bool
  HasBefore : Bool
  HasAfter : Bool
  deriving DecidableEq, Repr

/-- `Environment` (src/unnamed/part_002:8-15): the handler-output registry
(`Services`, a map modelled as an association list), the shutdown-hook and
after-handler lists (tracked by owning service name), the compose driver state
and the `noShutdown` flag.  Handler outputs are opaque values, modelled as `ℕ`;
a `none` output is Go's nil `interface{}` stored for a handler-less entry. -/
structure Environment where
  Services : List (String × Option ℕ)
  shutdownHooks : List String
  afterHandlers : List String
  compose : ComposeState
  noShutdown : Bool
  deriving DecidableEq, Repr

/-- Result of one `GetContainer` call at handler-invocation time. -/
inductive FindRes where
  | failed (e : Err)
  | missing
  | located
  deriving DecidableEq, Repr

/-- Effect outcomes available to one Environment-level call. -/
structure EnvWorld where
  op : OpWorld
  /-- Outcome of service `s`'s `Before` hook, when present (`some` = error). -/
  beforeErr : String → Option String
  /-- `GetContainer` result for service `s` inside `invokeServiceHandlers`. -/
  find : String → FindRes
  /-- Outcome of service `s`'s `Handler`, when invoked. -/
  handler : String → Except String ℕ

/-- Caller-visible errors of the Environment operations. -/
inductive EnvErr where
  | unmanaged (names : List String)
  | fromOp (e : OpErr)
  | containerLookup (e : Err)
  | noContainer (sname : String)
  | handlerFailed (sname : String) (msg : String)
  | beforeFailed (msg : String)
  deriving DecidableEq, Repr

/-- Result of an Environment operation in part_002: either `logger.Fatal`
terminated the process, or the call returned with the given (possibly nil)
error, leaving the environment in the given state. -/
inductive EnvStep where
  | fatal (msg : String)
  | next (env : Environment) (err : Option EnvErr)
  deriving DecidableEq, Repr

/-- `mapServiceEntries` (src/unnamed/part_002:189-195): a map keyed by entry
name — later entries overwrite earlier ones with the same name. -/
def dedupByName (entries : List ServiceEntry) : List ServiceEntry :=
  entries.foldl (fun acc e => acc.filter (fun x => x.Name ≠ e.Name) ++ [e]) []

/-- The first `Before`-hook failure among the (deduplicated) entries, if any
(src/unnamed/part_002:130-136). -/
def firstBeforeFailure (w : EnvWorld) (entries : List ServiceEntry) : Option String :=
  (dedupByName entries).findSome? (fun e => if e.HasBefore then w.beforeErr e.Name else none)

/-- `Environment.setupServiceConfigs` (src/unnamed/part_002:125-142): nothing
on an empty entry list; otherwise append the after-handlers, run the `Before`
hooks — a failure hits `logger.Fatal` (the `.error` case: the process dies) —
and register one shutdown hook per entry. -/
def setupServiceConfigs (env : Environment) (w : EnvWorld) (entries : List ServiceEntry) :
    Except String Environment :=
  if entries = [] then .ok env
  else
    match firstBeforeFailure w entries with
    | some msg => .error msg
    | none =>
      .ok { env with
            afterHandlers :=
              env.afterHandlers ++ ((dedupByName entries).filter (fun e => e.HasAfter)).map (fun e => e.Name),
            shutdownHooks := env.shutdownHooks ++ (dedupByName entries).map (fun e => e.Name) }

/-- Map write `serviceOutputs[name] = output`. -/
def mapPut (m : List (String × Option ℕ)) (k : String) (v : Option ℕ) :
    List (String × Option ℕ) :=
  if m.any (fun p => p.1 == k) then m.map (fun p => if p.1 == k then (k, v) else p)
  else m ++ [(k, v)]

/-- Map read `m[k]` (`none` = key absent). -/
def mapGet (m : List (String × Option ℕ)) (k : String) : Option (Option ℕ) :=
  (m.find? (fun p => p.1 == k)).map (fun p => p.2)

/-- `delete(m, k)` for each `k` in `names`. -/
def mapDeleteAll (m : List (String × Option ℕ)) (names : List String) :
    List (String × Option ℕ) :=
  names.foldl (fun acc nm => acc.filter (fun p => p.1 ≠ nm)) m

/-- The entry-processing loop of `Environment.invokeServiceHandlers`
(src/unnamed/part_002:163-184): for each entry, look the container up (an error
or absence aborts the whole call), invoke the handler when present (its failure
aborts), and write the output — nil for handler-less entries — into the fresh
`serviceOutputs` map. -/
def runHandlers (w : EnvWorld) :
    List ServiceEntry → List (String × Option ℕ) → Except EnvErr (List (String × Option ℕ))
  | [], acc => .ok acc
  | e :: rest, acc =>
    match w.find e.Name with
    | .failed er => .error (.containerLookup er)
    | .missing => .error (.noContainer e.Name)
    | .located =>
      if e.HasHandler then
        match w.handler e.Name with
        | .error msg => .error (.handlerFailed e.Name msg)
        | .ok v => runHandlers w rest (mapPut acc e.Name (some v))
      else runHandlers w rest (mapPut acc e.Name none)

/-- `Environment.invokeServiceHandlers` (src/unnamed/part_002:163-187): on
success the registry is wholesale-replaced — `e.Services = serviceOutputs` —
with the freshly built map holding only this call's entries. -/
def invokeServiceHandlers (env : Environment) (w : EnvWorld) (entries : List ServiceEntry) :
    Except EnvErr Environment :=
  match runHandlers w entries [] with
  | .error e => .error e
  | .ok outs => .ok { env with Services := outs }

/-- `Environment.StopServices` (src/unnamed/part_002:92-104): resolve the
requested names through `getServiceConfigs` (every managed config for an empty
request); a length mismatch — some requested name unmanaged, or an empty
request against a non-empty managed set — fails the call; otherwise run
`Compose.Stop` and, on success only, delete each requested name from the
handler-output map. -/
def stopServices (env : Environment) (w : EnvWorld) (services : List String) :
    Environment × Option EnvErr :=
  let configs := getServiceConfigs env.compose services
  if configs.length ≠ services.length then (env, some (.unmanaged services))
  else
    match composeStop env.compose w.op configs with
    | .error e => (env, some (.fromOp e))
    | .ok _ => ({ env with Services := mapDeleteAll env.Services services }, none)

/-- `Environment.StartServices` (src/unnamed/part_002:72-90): register the new
entries and run their `Before` hooks (a hook failure is `logger.Fatal`), run
`Compose.Start` for the entry names, then invoke the handlers; either failure
triggers a best-effort `StopServices` of the same names (whose own error is
only logged) before the error is returned. -/
def startServices (env : Environment) (w : EnvWorld) (entries : List ServiceEntry) : EnvStep :=
  match setupServiceConfigs env w entries with
  | .error msg => .fatal msg
  | .ok env1 =>
    let names := entries.map (fun e => e.Name)
    match composeStart env1.compose w.op names with
    | (c2, .error e) =>
      let env2 := { env1 with compose := c2 }
      .next (stopServices env2 w names).1 (some (.fromOp e))
    | (c2, .ok _) =>
      let env2 := { env1 with compose := c2 }
      match invokeServiceHandlers env2 w entries with
      | .error e => .next (stopServices env2 w names).1 (some e)
      | .ok env3 => .next env3 none

/-! ## StartEnvironment (current library version; spec §4.1) -/

/-- Result of `StartEnvironment`: a construction-time `logger.Fatal`
(terminating the process), a returned error — recording whether a full
`Shutdown` was triggered first — or the ready environment. -/
inductive StartEnvResult where
  | fatalConfig (msg : String)
  | failed (e : EnvErr) (shutdownRan : Bool)
  | ready (env : Environment)
  deriving DecidableEq, Repr

/-- The environment under construction once `NewCompose` succeeded: empty
registry, the entries' names as the managed set, one shutdown hook per entry
and the after-handlers registered. -/
def initialEnvironment (cfg : EnvironmentConfig) (entries : List ServiceEntry) : Environment :=
  { Services := [],
    shutdownHooks := (dedupByName entries).map (fun e => e.Name),
    afterHandlers := ((dedupByName entries).filter (fun e => e.HasAfter)).map (fun e => e.Name),
    compose :=
      { Env := cfg,
        Services := (entries.map (fun e => e.Name)).foldl
          (fun acc nm => if nm ∈ acc then acc else acc ++ [nm]) [] },
    noShutdown := cfg.NoShutdown }

/-- Modelled from the spec: the current `StartEnvironment` — the two-value
`(Environment, error)` form that the repository's own tests in
src/unnamed/part_000 call (`env, err := docker.StartEnvironment(...)`) — is not
among the snapshots under src/ (those call `logger.Fatal` instead of
returning).  Following spec §4.1/§7: construction rejects an empty compose-file
list or a missing file fatally; all `Before` hooks run first and any failure
aborts — before containers are touched — with a returned error; then a clean
`Down` runs unless `NoCleanup` (its result discarded), `Up` runs for the full
managed set, and each entry's handler is invoked; any failure after the hooks
triggers a full `Shutdown` (unless `NoShutdown` suppresses it) and is then
returned.  `filesExist` stands for the `os.Stat` checks on
`ComposeFilePaths`. -/
def startEnvironmentSpec (cfg : EnvironmentConfig) (filesExist : Bool) (w : EnvWorld)
    (entries : List ServiceEntry) : StartEnvResult :=
  if cfg.ComposeFilePaths = [] then
    .fatalConfig "at least one compose file must be specified"
  else if filesExist = false then
    .fatalConfig "compose file not found"
  else
    let env0 := initialEnvironment cfg entries
    match firstBeforeFailure w entries with
    | some msg => .failed (.beforeFailed msg) false
    | none =>
      match composeUp env0.compose w.op with
      | .error e => .failed (.fromOp e) (!cfg.NoShutdown)
      | .ok _ =>
        match invokeServiceHandlers env0 w entries with
        | .error e => .failed e (!cfg.NoShutdown)
        | .ok env1 => .ready env1

/-! ## Endpoint resolution (src/docker/utils.go) -/

/-- One entry of `container.Config.Ports` (`types.Port`; `uint16` values). -/
structure GoPort where
  PrivatePort : ℕ
  PublicPort : ℕ
  deriving DecidableEq, Repr

/-- `portMap[privatePort] = publicPort` (Go map write: overwrite or add). -/
def portPut (m : List (ℕ × ℕ)) (k v : ℕ) : List (ℕ × ℕ) :=
  if m.any (fun p => p.1 == k) then m.map (fun p => if p.1 == k then (k, v) else p)
  else m ++ [(k, v)]

/-- `parsePorts` with no private-port filter (src/docker/utils.go:176-194):
each port's private→public pair is written into the map. -/
def parsePorts (ports : List GoPort) : List (ℕ × ℕ) :=
  ports.foldl (fun m p => portPut m p.PrivatePort p.PublicPort) []

/-- Host-dependent inputs of `GetAllEndpoints`. -/
structure EndpointCtx where
  networkFound : Bool
  gateway : String
  isLinuxNonWsl : Bool
  deriving DecidableEq, Repr

/-- `GetAllEndpoints` (src/docker/utils.go:49-67): fail when the network is not
attached or no ports are published, else resolve host (gateway on a native
Linux host, loopback otherwise) and the private→public port map. -/
def getAllEndpoints (cname : String) (ctx : EndpointCtx) (ports : List GoPort) :
    Except String (String × List (ℕ × ℕ)) :=
  if ctx.networkFound = false then .error ("network not found for container " ++ cname)
  else if ports = [] then .error ("no ports found for container " ++ cname)
  else
    let host := if ctx.isLinuxNonWsl then ctx.gateway else "127.0.0.1"
    .ok (host, parsePorts ports)

/-- The range loop inside `GetEndpoint` (src/docker/utils.go:38-44), iteration
order abstracted as list order: at each entry it first tests `count > 1` —
failing only from the third entry on — then overwrites `port` and increments
`count`. -/
def pickSinglePort : List (ℕ × ℕ) → ℕ → ℕ → Except String ℕ
  | [], _, port => .ok port
  | e :: rest, count, _ =>
    if count > 1 then .error "multiple port bindings found"
    else pickSinglePort rest (count + 1) e.2

/-- `GetEndpoint` (src/docker/utils.go:31-47): resolve all endpoints, then run
the single-port selection loop over the port map (initial `count = 0`; the
initial `port` is Go's zero value, modelled as `0`). -/
def getEndpoint (cname : String) (ctx : EndpointCtx) (ports : List GoPort) :
    Except String (String × ℕ) :=
  match getAllEndpoints cname ctx ports with
  | .error e => .error e
  | .ok (host, portMap) =>
    match pickSinglePort portMap 0 0 with
    | .error e => .error e
    | .ok port => .ok (host, port)

/-! ## Concrete statuses, worlds and inputs used by the claim theorems -/

/-- The status `GetStatus` derives for a running, health-checked, healthy (or
check-less) container. -/
def runningStatus : ContainerStatus := { Error := none, Code := .Running }

/-- The status `GetStatus` derives for a cleanly exited container. -/
def exitedStatus : ContainerStatus := { Error := none, Code := .Exited }

/-- The status `GetStatus` derives for a created-but-not-started (or starting)
container. -/
def notReadyStatus : ContainerStatus := { Error := none, Code := .NotReady }

/-- The status `GetStatus` derives for an unhealthy container whose latest
health check exited 1 with output "check failed". -/
def unhealthyStatus : ContainerStatus :=
  { Error := some (.unhealthyCheck "c" 1 "check failed"), Code := .Unhealthy }

/-- A simulated inspection of an unhealthy container with one logged check. -/
def unhealthyInspection : Inspection :=
  .ok { Running := true, ExitCode := 0, Status := "running", StateError := "",
        Health := some { Status := "unhealthy", Log := [{ ExitCode := 1, Output := "check failed" }] } }

/-- A simulated inspection of a cleanly exited container. -/
def exitedInspection : Inspection :=
  .ok { Running := false, ExitCode := 0, Status := "exited", StateError := "", Health := none }

/-- Loop outcomes for the C3 counterexample: two services, both of whose
polling loops fail. -/
def cxOutcomes : ℕ → Option Err :=
  fun i => if i = 0 then some (.startTimedOut "a") else some (.startTimedOut "b")

/-- State after service 0's goroutine stored its error. -/
def cxState1 : PollerState :=
  { pollerInit with go := updGo pollerInit.go 0 .stored, stored := pollerInit.stored ++ [0] }

/-- State after service 0's send rendezvoused with the coordinator. -/
def cxState2 : PollerState :=
  { cxState1 with go := updGo cxState1.go 0 .sent, main := .reading }

/-- State after the coordinator read the error map and returned — while
service 1's loop is still running. -/
def cxState3 : PollerState :=
  { cxState2 with main := .returned cxState2.stored }

/-- Loop outcomes for the C3 witness: one service whose loop succeeds. -/
def wOutcomes : ℕ → Option Err := fun _ => none

/-- Witness trace: the single goroutine marks the pool. -/
def wState1 : PollerState := { pollerInit with go := updGo pollerInit.go 0 .done }

/-- Witness trace: the pool goroutine rendezvouses with the coordinator. -/
def wState2 : PollerState := { wState1 with poolSent := true, main := .reading }

/-- Witness trace: the coordinator returns success. -/
def wState3 : PollerState := { wState2 with main := .returned wState2.stored }

/-- A world in which the external process succeeds, each `awaitStart` loop
immediately observes a running container, each `awaitStop` loop immediately
observes the container gone, `Before` hooks succeed, the container is found at
handler time, and every handler returns `v`. -/
def goodStartWorld (v : ℕ) : EnvWorld :=
  { op :=
      { runOk := fun _ => true, elapsed := 0,
        startLoop := fun s _ => awaitStart s [.found runningStatus],
        stopLoop := fun s _ => awaitStop s [.missing] },
    beforeErr := fun _ => none,
    find := fun _ => .located,
    handler := fun _ => .ok v }

/-- A world for stopping services whose containers are already gone: the
process succeeds and every `awaitStop` loop's first poll finds no container. -/
def stoppedWorld : EnvWorld := goodStartWorld 0

/-- A service entry with a handler and no hooks. -/
def plainEntry (s : String) : ServiceEntry :=
  { Name := s, DisableShutdownLogs := false, HasHandler := true,
    HasBefore := false, HasAfter := false }

/-- A service entry with a `Before` hook and a handler. -/
def hookedEntry (s : String) : ServiceEntry :=
  { Name := s, DisableShutdownLogs := false, HasHandler := true,
    HasBefore := true, HasAfter := false }

/-- The environment state a successful single-entry `startServices` call
produces from `env`. -/
def afterStartEnv (env : Environment) (s : String) (v : ℕ) : Environment :=
  { Services := [(s, some v)],
    shutdownHooks := env.shutdownHooks ++ [s],
    afterHandlers := env.afterHandlers,
    compose := addServiceConfigs env.compose [s],
    noShutdown := env.noShutdown }

/-- Configuration used by the C4 counterexample: `UpTimeout` 10ns,
`DownTimeout` 20ns. -/
def c4Config : EnvironmentConfig :=
  { UpTimeout := 10, DownTimeout := 20, ComposeFilePaths := ["docker-compose.yml"],
    Label := "integration", NoCleanup := false, NoShutdown := false }

/-- Compose state for the C4 counterexample: one managed service. -/
def c4Compose : ComposeState := { Env := c4Config, Services := ["a"] }

/-- World for the C4 counterexample: the process succeeds after 1ns, and the
stop loop succeeds precisely when handed the claim's budget
`DownTimeout - elapsed = 19`, failing under any other deadline. -/
def c4World : OpWorld :=
  { runOk := fun _ => true, elapsed := 1,
    startLoop := fun _ _ => none,
    stopLoop := fun s b => if b = 19 then none else some (.stopTimedOut s) }

/-- Configuration used by the C8 theorems: valid paths, shutdown enabled. -/
def c8Config : EnvironmentConfig :=
  { UpTimeout := 30, DownTimeout := 30, ComposeFilePaths := ["docker-compose.tests.yml"],
    Label := "integration", NoCleanup := false, NoShutdown := false }

/-- World for the C8 counterexample: the `Before` hook of service "redis"
fails; everything else would succeed. -/
def c8BeforeFailWorld : EnvWorld :=
  { goodStartWorld 0 with beforeErr := fun _ => some "boom" }

/-- World for the C8 witness: `Up`'s process invocation fails. -/
def c8UpFailWorld : EnvWorld :=
  { goodStartWorld 0 with op := { (goodStartWorld 0).op with runOk := fun _ => false } }

/-- Two published ports, as Go's `ContainerInspect` would list them. -/
def twoPorts : List GoPort :=
  [{ PrivatePort := 80, PublicPort := 8080 }, { PrivatePort := 90, PublicPort := 9090 }]

/-- Three published ports. -/
def threePorts : List GoPort :=
  [{ PrivatePort := 80, PublicPort := 8080 }, { PrivatePort := 90, PublicPort := 9090 },
   { PrivatePort := 91, PublicPort := 9091 }]

/-- Endpoint context of a non-Linux developer machine. -/
def plainCtx : EndpointCtx := { networkFound := true, gateway := "172.18.0.1", isLinuxNonWsl := false }

/-- A one-service environment with a stored handler output, used as concrete
input by several witnesses. -/
def redisEnv : Environment :=
  { Services := [("redis", some 7)], shutdownHooks := ["redis"], afterHandlers := [],
    compose := { Env := c8Config, Services := ["redis"] }, noShutdown := false }

/-! ## Supporting lemmas -/

/-- Every status `GetStatus` actually returns satisfies `producible`: the
`Error` and `Unhealthy` codes carry an error, the others do not. -/
theorem getStatus_producible (cname : String) (insp : Inspection) (st : ContainerStatus)
    (h : getStatus cname insp = some st) : producible st = true := by
  cases insp with
  | error e =>
    simp only [getStatus] at h
    cases h
    rfl
  | ok is =>
    simp only [getStatus] at h
    split at h
    · split at h
      · cases h; rfl
      · split at h
        · cases h; rfl
        · cases h; rfl
    · split at h
      · cases h; rfl
      · rename_i hsome
        split at h
        · cases h; rfl
        · split at h
          · cases h; rfl
          · split at h
            · cases h
            · cases h; rfl

/-! ## C1 — GetStatus precedence -/

/-- C1 counterexample: a running container reported "unhealthy" with an empty
health-check log does not yield an `Unhealthy` status as the claim states for
every inspection result — `GetStatus` evaluates `checks[len(checks)-1]` on the
empty slice and returns no status at all. -/
theorem getStatus_unhealthy_empty_log_no_status :
    getStatus "c" unhealthyNoLogInspection = none := by decide

/-- C1 (amended): `GetStatus` realizes exactly the spec's §4.4 precedence
order, with rule (8) — running and "unhealthy" yields `Unhealthy` with the
diagnostic from the most recent health-check log entry — applying only when
that log is non-empty; on an empty log no status is produced. -/
theorem getStatus_follows_spec_precedence (cname : String) (insp : Inspection) :
    getStatus cname insp = getStatusSpec cname insp := by
  cases insp with
  | error e => rfl
  | ok is =>
    rcases is with ⟨running, exitCode, status, stateError, health⟩
    cases running <;> cases health <;>
      simp only [getStatus, getStatusSpec] <;> split_ifs <;> simp_all

/-! ## C9 — single-endpoint lookup -/

/-- C9: the `count > 1` test in `GetEndpoint` runs before `count` is
incremented, so it fails only from the third map entry on.  A container with
exactly two published port bindings is accepted — the last-iterated binding is
returned with a nil error, contradicting both the claim and the function's own
"expect a single unique public port … error is returned" contract — while
three bindings are needed to trigger the error. -/
theorem getEndpoint_two_bindings_accepted :
    getEndpoint "c" plainCtx twoPorts = .ok ("127.0.0.1", 9090) ∧
    getEndpoint "c" plainCtx threePorts = .error "multiple port bindings found" := by
  constructor <;> rfl

/-! ## C2 — retryable statuses in the start loop -/

/-- C2 counterexample: an `Unhealthy` status as `GetStatus` produces it (it
always carries a diagnostic error) is not retryable — `awaitStart` checks
`status.Error` first and returns the error immediately, so a loop observing
Unhealthy then Running fails rather than re-polling into convergence. -/
theorem awaitStart_unhealthy_not_retried :
    getStatus "c" unhealthyInspection = some unhealthyStatus ∧
    awaitStartStep "svc" (.found unhealthyStatus) ≠ .retry pollIntervalMs ∧
    awaitStart "svc" [.found unhealthyStatus, .found runningStatus] =
      some (.unhealthyCheck "c" 1 "check failed") := by
  refine ⟨by decide, by decide, by decide⟩

/-- C2 (amended): for statuses `GetStatus` can produce, the start loop's
iteration body retries — sleeping the fixed 500ms interval — exactly on
`NotReady`; an `Unhealthy` status ends the loop immediately with its diagnostic
error (it always carries one), and `Error`, `Exited` and `Running` end the loop
as well, converging exactly on `Running` and `Exited`. -/
theorem awaitStart_step_classification (sname : String) (st : ContainerStatus)
    (hp : producible st = true) :
    pollIntervalMs = 500 ∧
    (awaitStartStep sname (.found st) = .retry pollIntervalMs ↔ st.Code = .NotReady) ∧
    (st.Code = .Unhealthy →
      ∃ e, st.Error = some e ∧ awaitStartStep sname (.found st) = .finish (some e)) ∧
    (awaitStartStep sname (.found st) = .finish none ↔
      (st.Code = .Running ∨ st.Code = .Exited)) := by
  rcases st with ⟨err, code⟩
  cases code <;> cases err <;> simp_all [awaitStartStep, producible, pollIntervalMs]

/-- Witness for the C2 theorem at the `NotReady` status. -/
theorem awaitStart_step_classification_witness :
    (awaitStartStep "svc" (.found notReadyStatus) = .retry pollIntervalMs ↔
      notReadyStatus.Code = .NotReady) ∧
    (awaitStartStep "svc" (.found notReadyStatus) = .finish none ↔
      (notReadyStatus.Code = .Running ∨ notReadyStatus.Code = .Exited)) :=
  ⟨(awaitStart_step_classification "svc" notReadyStatus (by decide)).2.1,
   (awaitStart_step_classification "svc" notReadyStatus (by decide)).2.2.2⟩

/-! ## C7 — what the start loop converges on -/

/-- C7 counterexample: the start loop reports convergence for a status sequence
that never shows `Running` — a single observation of a cleanly exited container
(`GetStatus` yields code `Exited`, nil error) makes `awaitStart` return nil
immediately, because the loop converges on any error-free status code other
than `Unhealthy`/`NotReady`. -/
theorem awaitStart_converges_on_exited :
    getStatus "c" exitedInspection = some exitedStatus ∧
    exitedStatus.Code ≠ .Running ∧
    awaitStart "svc" [.found exitedStatus] = none := by
  refine ⟨by decide, by decide, by decide⟩

/-- Decomposition of a converging start-loop run: helper for the C7 theorem,
forward direction. -/
theorem awaitStart_decomp_of_none (sname : String) :
    ∀ obss : List PollObs, (∀ st, PollObs.found st ∈ obss → producible st = true) →
      awaitStart sname obss = none →
      ∃ pre st post, obss = pre ++ PollObs.found st :: post ∧ st.Error = none ∧
        (st.Code = .Running ∨ st.Code = .Exited) ∧
        (∀ p ∈ pre, p = .missing ∨ ∃ st2, p = PollObs.found st2 ∧ st2.Code = .NotReady) := by
  intro obss
  induction obss with
  | nil => intro _ h; cases h
  | cons o rest ih =>
    intro hp h
    have hpRest : ∀ st, PollObs.found st ∈ rest → producible st = true := by
      intro st hmem; exact hp st (List.mem_cons_of_mem o hmem)
    match o with
    | .failed e => simp [awaitStart, awaitStartStep] at h
    | .missing =>
      have h2 : awaitStart sname rest = none := by
        simpa [awaitStart, awaitStartStep] using h
      obtain ⟨pre, st, post, heq, herr, hcode, hpre⟩ := ih hpRest h2
      refine ⟨.missing :: pre, st, post, by simp [heq], herr, hcode, ?_⟩
      intro p hp2
      rcases List.mem_cons.mp hp2 with h3 | h3
      · exact Or.inl h3
      · exact hpre p h3
    | .found st =>
      have hps : producible st = true := hp st (List.mem_cons_self _ _)
      match herr : st.Error with
      | some e => simp [awaitStart, awaitStartStep, herr] at h
      | none =>
        by_cases hun : st.Code = .Unhealthy ∨ st.Code = .NotReady
        · have hnr : st.Code = .NotReady := by
            rcases hun with h4 | h4
            · exfalso
              rw [producible, h4, herr] at hps
              exact absurd hps (by simp)
            · exact h4
          have h2 : awaitStart sname rest = none := by
            simpa [awaitStart, awaitStartStep, herr, hun] using h
          obtain ⟨pre, st2, post, heq, herr2, hcode, hpre⟩ := ih hpRest h2
          refine ⟨.found st :: pre, st2, post, by simp [heq], herr2, hcode, ?_⟩
          intro p hp2
          rcases List.mem_cons.mp hp2 with h3 | h3
          · exact Or.inr ⟨st, h3, hnr⟩
          · exact hpre p h3
        · have hcode : st.Code = .Running ∨ st.Code = .Exited := by
            rw [producible] at hps
            cases hc : st.Code <;> rw [hc] at hps hun
            · rw [herr] at hps; exact absurd hps (by simp)
            · exact Or.inl rfl
            · exact Or.inr rfl
            · exact absurd (Or.inl rfl) hun
            · exact absurd (Or.inr rfl) hun
          exact ⟨[], st, rest, by simp, herr, hcode, by simp⟩

/-- A decomposed stream does converge: helper for the C7 theorem, reverse
direction. -/
theorem awaitStart_none_of_decomp (sname : String) (st : ContainerStatus) (post : List PollObs)
    (herr : st.Error = none) (hcode : st.Code = .Running ∨ st.Code = .Exited) :
    ∀ pre : List PollObs,
      (∀ p ∈ pre, p = .missing ∨
        ∃ st2, p = PollObs.found st2 ∧ st2.Error = none ∧ st2.Code = .NotReady) →
      awaitStart sname (pre ++ PollObs.found st :: post) = none := by
  have hstep : awaitStartStep sname (.found st) = .finish none := by
    simp only [awaitStartStep, herr]
    rw [if_neg]
    rcases hcode with h4 | h4 <;> rw [h4] <;> simp
  intro pre
  induction pre with
  | nil => intro _; simp [awaitStart, hstep]
  | cons q pre2 ihpre =>
    intro hpre
    have htail := ihpre (fun p hp2 => hpre p (List.mem_cons_of_mem q hp2))
    rcases hpre q (List.mem_cons_self _ _) with h4 | ⟨st2, h4, herr2, hnr⟩
    · subst h4; simpa [awaitStart, awaitStartStep] using htail
    · subst h4
      simpa [awaitStart, awaitStartStep, herr2, hnr] using htail

/-- C7 (amended): over observation streams of statuses `GetStatus` can produce,
the per-service start loop reports convergence exactly when some observation
shows an error-free `Running` or `Exited` status and every earlier observation
was retryable — container not found yet, or a `NotReady` status. -/
theorem awaitStart_convergence_iff (sname : String) (obss : List PollObs)
    (hp : ∀ st, PollObs.found st ∈ obss → producible st = true) :
    awaitStart sname obss = none ↔
      ∃ pre st post, obss = pre ++ PollObs.found st :: post ∧ st.Error = none ∧
        (st.Code = .Running ∨ st.Code = .Exited) ∧
        (∀ p ∈ pre, p = .missing ∨ ∃ st2, p = PollObs.found st2 ∧ st2.Code = .NotReady) := by
  constructor
  · exact awaitStart_decomp_of_none sname obss hp
  · rintro ⟨pre, st, post, heq, herr, hcode, hpre⟩
    rw [heq]
    apply awaitStart_none_of_decomp sname st post herr hcode pre
    intro p hp2
    rcases hpre p hp2 with h4 | ⟨st2, h4, hnr⟩
    · exact Or.inl h4
    · refine Or.inr ⟨st2, h4, ?_, hnr⟩
      have hps2 : producible st2 = true := by
        apply hp
        rw [heq, ← h4]
        exact List.mem_append_left _ hp2
      rw [producible, hnr] at hps2
      simpa using hps2

/-- Witness for the C7 theorem: a stream observing "no container yet", then
`NotReady`, then `Running` converges. -/
theorem awaitStart_convergence_iff_witness :
    awaitStart "svc" [.missing, .found notReadyStatus, .found runningStatus] = none := by
  have hp : ∀ st, PollObs.found st ∈
      [PollObs.missing, .found notReadyStatus, .found runningStatus] →
      producible st = true := by
    intro st hmem
    simp only [List.mem_cons, List.not_mem_nil, or_false] at hmem
    rcases hmem with h | h | h
    · exact absurd h (by simp)
    · rw [PollObs.found.injEq] at h; subst h; decide
    · rw [PollObs.found.injEq] at h; subst h; decide
  refine (awaitStart_convergence_iff "svc" _ hp).mpr
    ⟨[.missing, .found notReadyStatus], runningStatus, [], rfl, rfl, Or.inl rfl, ?_⟩
  intro p hp2
  simp only [List.mem_cons, List.not_mem_nil, or_false] at hp2
  rcases hp2 with h | h
  · exact Or.inl h
  · exact Or.inr ⟨notReadyStatus, h, rfl⟩

/-! ## C3 — the awaitState coordinator -/

/-- The invariant holds initially. -/
theorem pollerInv_init (n : ℕ) (o : ℕ → Option Err) : PollerInv n o pollerInit := by
  refine ⟨?_, ?_, ?_, ?_, ?_⟩ <;> simp [pollerInit, PollerInv]

/-- The invariant is preserved by every interleaving step. -/
theorem pollerInv_step {n : ℕ} {o : ℕ → Option Err} {s s2 : PollerState}
    (hinv : PollerInv n o s) (hstep : PollerStep n o s s2) : PollerInv n o s2 := by
  obtain ⟨inv1, inv2, inv3, inv4, inv5⟩ := hinv
  cases hstep with
  | @storeErr i hi hoi hgo =>
    refine ⟨?_, ?_, ?_, ?_, ?_⟩
    · intro j
      by_cases hji : j = i
      · subst hji
        simp only [List.mem_append, List.mem_singleton, updGo, if_pos rfl]
        constructor
        · intro _; exact ⟨hi, hoi, by simp⟩
        · intro _; exact Or.inr trivial
      · simp only [List.mem_append, List.mem_singleton, updGo, if_neg hji, hji, or_false]
        exact inv1 j
    · intro j hj
      by_cases hji : j = i
      · subst hji; exact hoi
      · simp only [updGo, if_neg hji] at hj
        exact inv2 j hj
    · intro hmn
      rcases inv3 hmn with h | ⟨j, hj, hoj, hgj⟩
      · exact Or.inl h
      · have hji : j ≠ i := by
          intro hji; subst hji
          rcases hgj with h2 | h2 <;> rw [hgo] at h2 <;> cases h2
        exact Or.inr ⟨j, hj, hoj, by simpa only [updGo, if_neg hji] using hgj⟩
    · intro ht
      exact absurd (inv4 ht i hi) (by rw [hgo]; simp)
    · intro agg hm2
      refine ⟨?_, (inv5 agg hm2).2⟩
      intro hagg
      exact absurd (((inv5 agg hm2).1 hagg).1 i hi) hoi
  | @sendErr i hi hgo hm =>
    refine ⟨?_, ?_, ?_, ?_, ?_⟩
    · intro j
      by_cases hji : j = i
      · subst hji
        simp only [updGo, if_pos rfl]
        rw [inv1 j, hgo]
        simp
      · simp only [updGo, if_neg hji]
        exact inv1 j
    · intro j hj
      by_cases hji : j = i
      · subst hji; exact inv2 j (Or.inl hgo)
      · simp only [updGo, if_neg hji] at hj
        exact inv2 j hj
    · intro _
      exact Or.inr ⟨i, hi, inv2 i (Or.inl hgo), Or.inl (by simp [updGo])⟩
    · intro ht
      exact absurd (inv4 ht i hi) (by rw [hgo]; simp)
    · intro agg hm2
      cases hm2
  | @doneErr i hi hgo =>
    refine ⟨?_, ?_, ?_, ?_, ?_⟩
    · intro j
      by_cases hji : j = i
      · subst hji
        simp only [updGo, if_pos rfl]
        rw [inv1 j, hgo]
        simp
      · simp only [updGo, if_neg hji]
        exact inv1 j
    · intro j hj
      by_cases hji : j = i
      · subst hji
        simp only [updGo, if_pos rfl] at hj
        rcases hj with h2 | h2 <;> cases h2
      · simp only [updGo, if_neg hji] at hj
        exact inv2 j hj
    · intro hmn
      rcases inv3 hmn with h | ⟨j, hj, hoj, hgj⟩
      · exact Or.inl h
      · by_cases hji : j = i
        · subst hji
          exact Or.inr ⟨j, hj, hoj, Or.inr (by simp [updGo])⟩
        · exact Or.inr ⟨j, hj, hoj, by simpa only [updGo, if_neg hji] using hgj⟩
    · intro ht
      exact absurd (inv4 ht i hi) (by rw [hgo]; simp)
    · intro agg hm2
      refine ⟨?_, (inv5 agg hm2).2⟩
      intro hagg
      exact absurd (((inv5 agg hm2).1 hagg).2 i hi) (by rw [hgo]; simp)
  | @doneOk i hi hoi hgo =>
    refine ⟨?_, ?_, ?_, ?_, ?_⟩
    · intro j
      by_cases hji : j = i
      · subst hji
        simp only [updGo, if_pos rfl]
        rw [inv1 j, hoi]
        simp
      · simp only [updGo, if_neg hji]
        exact inv1 j
    · intro j hj
      by_cases hji : j = i
      · subst hji
        simp only [updGo, if_pos rfl] at hj
        rcases hj with h2 | h2 <;> cases h2
      · simp only [updGo, if_neg hji] at hj
        exact inv2 j hj
    · intro hmn
      rcases inv3 hmn with h | ⟨j, hj, hoj, hgj⟩
      · exact Or.inl h
      · have hji : j ≠ i := by
          intro hji; subst hji; exact hoj hoi
        exact Or.inr ⟨j, hj, hoj, by simpa only [updGo, if_neg hji] using hgj⟩
    · intro ht
      exact absurd (inv4 ht i hi) (by rw [hgo]; simp)
    · intro agg hm2
      refine ⟨?_, (inv5 agg hm2).2⟩
      intro hagg
      exact absurd (((inv5 agg hm2).1 hagg).2 i hi) (by rw [hgo]; simp)
  | poolDone hall hps hm =>
    refine ⟨inv1, inv2, ?_, ?_, ?_⟩
    · intro _; exact Or.inl rfl
    · intro _; exact hall
    · intro agg hm2
      cases hm2
  | mainReturn hm =>
    refine ⟨inv1, inv2, ?_, inv4, ?_⟩
    · intro _
      exact inv3 (by rw [hm]; simp)
    · intro agg hm2
      have hagg : agg = s.stored := by
        cases hm2; rfl
      subst hagg
      constructor
      · intro hempty
        have hnotin : ∀ j, j < n → o j ≠ none → False := by
          intro j hj hoj
          rcases inv3 (by rw [hm]; simp) with hps | ⟨k, hk, hok, hgk⟩
          · have hd : s.go j = .done := inv4 hps j hj
            have : j ∈ s.stored := (inv1 j).mpr ⟨hj, hoj, by rw [hd]; simp⟩
            rw [hempty] at this
            cases this
          · have : k ∈ s.stored := by
              refine (inv1 k).mpr ⟨hk, hok, ?_⟩
              rcases hgk with h2 | h2 <;> rw [h2] <;> simp
            rw [hempty] at this
            cases this
        constructor
        · intro j hj
          by_contra hoj
          exact hnotin j hj hoj
        · intro j hj
          rcases inv3 (by rw [hm]; simp) with hps | ⟨k, hk, hok, hgk⟩
          · exact inv4 hps j hj
          · exfalso
            exact hnotin k hk hok
      · intro j hjmem
        have := (inv1 j).mp hjmem
        exact ⟨this.1, this.2.1⟩

/-- Every reachable state of an `awaitState` call satisfies the invariant. -/
theorem pollerInv_of_reach {n : ℕ} {o : ℕ → Option Err} {s : PollerState}
    (h : PollerReach n o s) : PollerInv n o s := by
  induction h with
  | refl => exact pollerInv_init n o
  | tail _ hstep ih => exact pollerInv_step ih hstep

/-- C3 counterexample: with two services whose loops both fail, the
interleaving "loop 0 stores and signals; the coordinator receives and returns"
is reachable.  In the final state the coordinator has already returned with
aggregate `[0]` although loop 1 has not reported at all and its error
(`cxOutcomes 1`) is missing from the aggregate — refuting both "returns only
after every loop has reported" and "the aggregate contains every failing
service's error". -/
theorem awaitState_first_error_returns_early :
    PollerReach 2 cxOutcomes cxState3 ∧
    cxState3.main = .returned [0] ∧
    cxState3.go 1 = .looping ∧
    cxOutcomes 1 = some (.startTimedOut "b") ∧
    (1 : ℕ) ∉ ([0] : List ℕ) := by
  refine ⟨?_, rfl, rfl, rfl, by decide⟩
  have h1 : PollerStep 2 cxOutcomes pollerInit cxState1 :=
    PollerStep.storeErr (i := 0) (by norm_num) (by simp [cxOutcomes, pollerInit]) rfl
  have h2 : PollerStep 2 cxOutcomes cxState1 cxState2 :=
    PollerStep.sendErr (i := 0) (by norm_num) (by simp [cxState1, updGo]) rfl
  have h3 : PollerStep 2 cxOutcomes cxState2 cxState3 :=
    PollerStep.mainReturn rfl
  exact ((Relation.ReflTransGen.refl.tail h1).tail h2).tail h3

/-- C3 (amended): in every reachable state in which the `awaitState`
coordinator has returned, (a) it reports success (empty aggregate) exactly when
no per-service loop failed; (b) on success every loop has in fact finished
(reported exactly once) before the return; (c) the aggregate only ever names
services whose loops really failed — but, per the counterexample, on failure it
returns at the first error signal and need not contain every failure. -/
theorem awaitState_verdict (n : ℕ) (o : ℕ → Option Err) (s : PollerState) (agg : List ℕ)
    (hreach : PollerReach n o s) (hm : s.main = .returned agg) :
    (agg = [] ↔ ∀ i, i < n → o i = none) ∧
    (agg = [] → ∀ i, i < n → s.go i = .done) ∧
    (∀ i, i ∈ agg → i < n ∧ o i ≠ none) := by
  obtain ⟨inv1, inv2, inv3, inv4, inv5⟩ := pollerInv_of_reach hreach
  have h5 := inv5 agg hm
  refine ⟨⟨fun hagg => (h5.1 hagg).1, ?_⟩, fun hagg => (h5.1 hagg).2, h5.2⟩
  intro hall
  cases hagg : agg with
  | nil => rfl
  | cons j t =>
    have hmem : j ∈ agg := by rw [hagg]; exact List.mem_cons_self _ _
    exact absurd (hall j (h5.2 j hmem).1) (h5.2 j hmem).2

/-- Reachable success trace used by the C3 witness: the single succeeding loop
reports, the pool completes, the coordinator returns. -/
theorem pollerReach_success_trace : PollerReach 1 wOutcomes wState3 := by
  have h1 : PollerStep 1 wOutcomes pollerInit wState1 :=
    PollerStep.doneOk (i := 0) (by norm_num) rfl rfl
  have h2 : PollerStep 1 wOutcomes wState1 wState2 := by
    refine PollerStep.poolDone ?_ rfl rfl
    intro i hi
    have : i = 0 := by omega
    subst this
    simp [wState1, updGo]
  have h3 : PollerStep 1 wOutcomes wState2 wState3 :=
    PollerStep.mainReturn rfl
  exact ((Relation.ReflTransGen.refl.tail h1).tail h2).tail h3

/-- Witness for the C3 theorem at the one-service success trace. -/
theorem awaitState_verdict_witness :
    (([] : List ℕ) = [] ↔ ∀ i, i < 1 → wOutcomes i = none) ∧
    (([] : List ℕ) = [] → ∀ i, i < 1 → wState3.go i = .done) ∧
    (∀ i, i ∈ ([] : List ℕ) → i < 1 ∧ wOutcomes i ≠ none) :=
  awaitState_verdict 1 wOutcomes wState3 [] pollerReach_success_trace rfl

/-! ## C4 — shared deadlines of the lifecycle operations -/

/-- C4 counterexample: with `UpTimeout` 10 and `DownTimeout` 20 and a process
that took 1, `Down`'s poller is handed `10 - 1 = 9`, not `20 - 1 = 19`: a stop
loop that succeeds under the budget the claim predicts (and only under it)
still makes `Down` fail. -/
theorem composeDown_ignores_down_timeout_budget :
    composeDown c4Compose c4World = .error (.convergeFailed "down") ∧
    composeDownClaimed c4Compose c4World = .ok () ∧
    c4World.stopLoop "a" (c4Compose.Env.DownTimeout - c4World.elapsed) = none := by
  refine ⟨by rfl, by rfl, by rfl⟩

/-- C4 (amended): every operation hands the convergence poller the budget
`UpTimeout - elapsed`: for `Up` and `Start` that is their own ceiling net of
process time as the claim states, but `Stop` and `Down` — whose process runs
under `DownTimeout` — also subtract the elapsed time from `UpTimeout`
(part_004:131 and part_004:147), not from `DownTimeout`. -/
theorem compose_ops_share_up_deadline (c : ComposeState) (w : OpWorld) (names : List String) :
    (composeUp c w = .ok () ↔
      (w.runOk c.Env.UpTimeout = true ∧
        ∀ s ∈ c.Services, w.startLoop s (c.Env.UpTimeout - w.elapsed) = none)) ∧
    (names ≠ [] →
      ((composeStart c w names).2 = .ok () ↔
        (w.runOk c.Env.UpTimeout = true ∧
          ∀ s ∈ names, w.startLoop s (c.Env.UpTimeout - w.elapsed) = none))) ∧
    (composeStop c w names = .ok () ↔
      (w.runOk c.Env.DownTimeout = true ∧
        ∀ s ∈ getServiceConfigs c names,
          w.stopLoop s (c.Env.UpTimeout - w.elapsed) = none)) ∧
    (composeDown c w = .ok () ↔
      (w.runOk c.Env.DownTimeout = true ∧
        ∀ s ∈ c.Services, w.stopLoop s (c.Env.UpTimeout - w.elapsed) = none)) := by
  refine ⟨?_, ?_, ?_, ?_⟩
  · simp only [composeUp]
    split_ifs with h1 h2 <;>
      simp_all [List.all_eq_true, Option.isNone_iff_eq_none]
  · intro hne
    simp only [composeStart, if_neg hne]
    split_ifs with h1 h2 <;>
      simp_all [List.all_eq_true, Option.isNone_iff_eq_none]
  · simp only [composeStop]
    split_ifs with h1 h2
    · constructor
      · intro h; exact absurd h (by simp)
      · rintro ⟨hr, -⟩
        rw [h1] at hr
        exact absurd hr (by simp)
    · constructor
      · intro _
        refine ⟨by simpa using h1, ?_⟩
        intro s hs
        have h3 := List.all_eq_true.mp h2 s hs
        simpa [Option.isNone_iff_eq_none] using h3
      · intro _; rfl
    · constructor
      · intro h; exact absurd h (by simp)
      · rintro ⟨-, hall⟩
        exfalso
        apply h2
        rw [List.all_eq_true]
        intro s hs
        simpa [Option.isNone_iff_eq_none] using hall s hs
  · simp only [composeDown]
    split_ifs with h1 h2 <;>
      simp_all [List.all_eq_true, Option.isNone_iff_eq_none]

/-- Witness for the C4 theorem: the `Start` conjunct at a non-empty service
list. -/
theorem compose_ops_share_up_deadline_witness :
    (composeStart c4Compose c4World ["a"]).2 = .ok () ↔
      (c4World.runOk c4Compose.Env.UpTimeout = true ∧
        ∀ s ∈ ["a"], c4World.startLoop s (c4Compose.Env.UpTimeout - c4World.elapsed) = none) :=
  (compose_ops_share_up_deadline c4Compose c4World ["a"]).2.1 (by decide)

/-! ## C5 — StopServices -/

/-- Every element surviving `mapDeleteAll` was in the original map. -/
theorem mem_of_mem_mapDeleteAll {p : String × Option ℕ} :
    ∀ (names : List String) (m : List (String × Option ℕ)),
      p ∈ mapDeleteAll m names → p ∈ m := by
  intro names
  induction names with
  | nil => intro m h; exact h
  | cons nm rest ih =>
    intro m h
    have h2 := ih (m.filter (fun q => q.1 ≠ nm)) h
    exact List.mem_of_mem_filter h2

/-- A deleted key cannot be looked up any more. -/
theorem mapGet_mapDeleteAll_eq_none : ∀ (names : List String) (nm : String), nm ∈ names →
    ∀ m : List (String × Option ℕ), mapGet (mapDeleteAll m names) nm = none := by
  intro names
  induction names with
  | nil => intro nm hm; cases hm
  | cons q rest ih =>
    intro nm hm m
    show mapGet (mapDeleteAll (m.filter (fun p => p.1 ≠ q)) rest) nm = none
    rcases List.mem_cons.mp hm with h | h
    · subst h
      have hall : ∀ p ∈ mapDeleteAll (m.filter (fun p => p.1 ≠ nm)) rest,
          ¬((p.1 == nm) = true) := by
        intro p hp
        have h2 := mem_of_mem_mapDeleteAll rest _ hp
        have h3 := List.of_mem_filter h2
        simpa using h3
      have hfind : (mapDeleteAll (m.filter (fun p => p.1 ≠ nm)) rest).find?
          (fun p => p.1 == nm) = none :=
        List.find?_eq_none.mpr hall
      unfold mapGet
      rw [hfind]
      rfl
    · exact ih nm h (m.filter (fun p => p.1 ≠ q))

/-- When the managed set is duplicate-free and some requested name is
unmanaged, `getServiceConfigs` returns strictly fewer configs than names
requested. -/
theorem filter_length_lt_of_not_mem (l names : List String) (hnd : l.Nodup) (nm : String)
    (hmem : nm ∈ names) (hnot : nm ∉ l) :
    (l.filter (fun s => names.contains s)).length < names.length := by
  have h1 : (l.filter (fun s => names.contains s)).Nodup := hnd.filter _
  have hsubf : (l.filter (fun s => names.contains s)).toFinset ⊆ names.toFinset.erase nm := by
    intro x hx
    rw [List.mem_toFinset, List.mem_filter] at hx
    obtain ⟨hxl, hxn⟩ := hx
    have hxn2 : x ∈ names := by simpa using hxn
    rw [Finset.mem_erase, List.mem_toFinset]
    exact ⟨fun hxe => hnot (hxe ▸ hxl), hxn2⟩
  calc (l.filter (fun s => names.contains s)).length
      = (l.filter (fun s => names.contains s)).toFinset.card :=
        (List.toFinset_card_of_nodup h1).symm
    _ ≤ (names.toFinset.erase nm).card := Finset.card_le_card hsubf
    _ < names.toFinset.card := Finset.card_erase_lt_of_mem (List.mem_toFinset.mpr hmem)
    _ ≤ names.length := List.toFinset_card_le names

/-- When all requested (duplicate-free) names are managed,
`getServiceConfigs` returns exactly one config per name. -/
theorem filter_length_eq_of_sub (l names : List String) (hnd : l.Nodup) (hnn : names.Nodup)
    (hsub : ∀ nm ∈ names, nm ∈ l) :
    (l.filter (fun s => names.contains s)).length = names.length := by
  have hperm : (l.filter (fun s => names.contains s)).Perm names := by
    rw [List.perm_ext_iff_of_nodup (hnd.filter _) hnn]
    intro a
    rw [List.mem_filter]
    constructor
    · rintro ⟨-, ha⟩
      simpa using ha
    · intro ha
      exact ⟨hsub a ha, by simpa using ha⟩
  exact hperm.length_eq

/-- The `awaitStop` loop that finds no container converges at once: absence
counts as stopped. -/
theorem awaitStop_missing_converges (s : String) : awaitStop s [.missing] = none := rfl

/-- `Compose.Stop` succeeds in the already-stopped world whatever set is
polled — all managed services for an empty request included. -/
theorem composeStop_stoppedWorld_ok (c : ComposeState) (names : List String) :
    composeStop c stoppedWorld.op names = .ok () := by
  have hall : (getServiceConfigs c names).all
      (fun s => (stoppedWorld.op.stopLoop s (c.Env.UpTimeout - stoppedWorld.op.elapsed)).isNone)
      = true := by
    rw [List.all_eq_true]
    intro s _
    rfl
  have hrun : stoppedWorld.op.runOk c.Env.DownTimeout = true := rfl
  simp [composeStop, hall, hrun]

/-- C5: `StopServices` fails — leaving the environment untouched — whenever
some requested name is not in the managed configuration set; and for a
non-empty, duplicate-free batch of managed names whose containers are already
gone it succeeds, succeeds again when repeated (the names stay registered), and
erases each requested name from the handler-output registry. -/
theorem stopServices_contract (env : Environment) (w : EnvWorld) (names : List String)
    (hnd : env.compose.Services.Nodup) :
    ((∃ nm, nm ∈ names ∧ nm ∉ env.compose.Services) →
      stopServices env w names = (env, some (.unmanaged names))) ∧
    (names ≠ [] → (∀ nm ∈ names, nm ∈ env.compose.Services) → names.Nodup →
      ((stopServices env stoppedWorld names).2 = none ∧
       (stopServices (stopServices env stoppedWorld names).1 stoppedWorld names).2 = none ∧
       (∀ nm ∈ names, mapGet (stopServices env stoppedWorld names).1.Services nm = none))) := by
  constructor
  · rintro ⟨nm, hmem, hnot⟩
    have hne : names ≠ [] := by rintro rfl; cases hmem
    have hlt := filter_length_lt_of_not_mem env.compose.Services names hnd nm hmem hnot
    simp only [stopServices, getServiceConfigs, if_neg hne]
    rw [if_pos (by omega)]
  · intro hne hsub hnn
    have hlen := filter_length_eq_of_sub env.compose.Services names hnd hnn hsub
    have hres : stopServices env stoppedWorld names =
        ({ env with Services := mapDeleteAll env.Services names }, none) := by
      simp only [stopServices, getServiceConfigs, if_neg hne]
      rw [if_neg (by omega), composeStop_stoppedWorld_ok]
    have hres2 : stopServices { env with Services := mapDeleteAll env.Services names }
        stoppedWorld names =
        ({ env with Services := mapDeleteAll (mapDeleteAll env.Services names) names }, none) := by
      simp only [stopServices, getServiceConfigs, if_neg hne]
      rw [if_neg (by omega), composeStop_stoppedWorld_ok]
    refine ⟨by rw [hres], by rw [hres, hres2], ?_⟩
    intro nm hmem
    rw [hres]
    exact mapGet_mapDeleteAll_eq_none names nm hmem env.Services

/-- Witness for the C5 theorem: a one-service environment.  Stopping the
unknown name "fake" fails; stopping the registered, already-stopped "redis"
succeeds. -/
theorem stopServices_contract_witness :
    stopServices redisEnv stoppedWorld ["fake"] = (redisEnv, some (.unmanaged ["fake"])) ∧
    (stopServices redisEnv stoppedWorld ["redis"]).2 = none := by
  constructor
  · exact (stopServices_contract redisEnv stoppedWorld ["fake"] (by simp [redisEnv])).1
      ⟨"fake", by simp, by simp [redisEnv]⟩
  · exact ((stopServices_contract redisEnv stoppedWorld ["redis"] (by simp [redisEnv])).2
      (by simp) (by simp [redisEnv]) (by simp)).1

/-! ## C6 and C10 — StartServices and the handler-output registry -/

/-- A single-entry `startServices` call in the good world succeeds and leaves
exactly that entry's fresh handler output in the registry. -/
theorem startServices_goodWorld (env : Environment) (s : String) (v : ℕ) :
    startServices env (goodStartWorld v) [plainEntry s] = .next (afterStartEnv env s v) none := by
  simp [startServices, setupServiceConfigs, firstBeforeFailure, dedupByName, plainEntry,
    composeStart, goodStartWorld, awaitStart, awaitStartStep, runningStatus,
    invokeServiceHandlers, runHandlers, mapPut, afterStartEnv, addServiceConfigs]

/-- C6: restarting an entry whose service is already up succeeds again,
re-invokes the handler, and the second invocation's output replaces the first
one in the registry: after the second call the entry for `s` holds `v2`, the
value produced by the second handler run. -/
theorem startServices_restart_replaces_output (env : Environment) (s : String) (v1 v2 : ℕ) :
    startServices env (goodStartWorld v1) [plainEntry s] = .next (afterStartEnv env s v1) none ∧
    startServices (afterStartEnv env s v1) (goodStartWorld v2) [plainEntry s] =
      .next (afterStartEnv (afterStartEnv env s v1) s v2) none ∧
    mapGet (afterStartEnv env s v1).Services s = some (some v1) ∧
    mapGet (afterStartEnv (afterStartEnv env s v1) s v2).Services s = some (some v2) := by
  refine ⟨startServices_goodWorld env s v1, startServices_goodWorld _ s v2, ?_, ?_⟩ <;>
    simp [afterStartEnv, mapGet]

/-- C10: a successful `StartServices` call replaces the whole handler-output
registry with a map holding only the services it named — any previously stored
output for a different service `x` is gone afterwards. -/
theorem startServices_drops_unnamed_outputs (env : Environment) (x y : String)
    (out : Option ℕ) (v : ℕ) (hxy : x ≠ y) (_hstored : mapGet env.Services x = some out) :
    startServices env (goodStartWorld v) [plainEntry y] = .next (afterStartEnv env y v) none ∧
    mapGet (afterStartEnv env y v).Services x = none := by
  refine ⟨startServices_goodWorld env y v, ?_⟩
  have hyx : (y == x) = false := by
    rw [beq_eq_false_iff_ne]
    exact fun h => hxy h.symm
  simp [afterStartEnv, mapGet, hyx]

/-- Witness for the C10 theorem: starting "pg" removes the stored "redis"
output. -/
theorem startServices_drops_unnamed_outputs_witness :
    startServices redisEnv (goodStartWorld 1) [plainEntry "pg"] =
      .next (afterStartEnv redisEnv "pg" 1) none ∧
    mapGet (afterStartEnv redisEnv "pg" 1).Services "redis" = none :=
  startServices_drops_unnamed_outputs redisEnv "redis" "pg" (some 7) 1 (by decide)
    (by rfl)

/-! ## C8 — StartEnvironment error surface -/

/-- C8 counterexample: with a valid configuration that does not suppress
shutdown, a failing `Before` hook makes `StartEnvironment` return its error
without triggering a full `Shutdown` (spec §4.1: hook failures abort before
containers are touched; only failures after the hooks trigger `Shutdown`) —
against the claim's reading that each surfaced failure follows a `Shutdown`. -/
theorem startEnvironment_before_failure_no_shutdown :
    startEnvironmentSpec c8Config true c8BeforeFailWorld [hookedEntry "redis"] =
      .failed (.beforeFailed "boom") false ∧
    c8Config.NoShutdown = false := by
  constructor <;> rfl

/-- C8 (amended): `StartEnvironment` terminates the process only for
construction-time configuration errors (empty compose-file list or a missing
file); otherwise every failure is surfaced as a returned error: a `Before`-hook
failure is returned without triggering `Shutdown` (startup aborts before
containers are touched), while `Up` failures and handler failures trigger a
full `Shutdown` first unless `NoShutdown` suppresses it. -/
theorem startEnvironment_error_surface (cfg : EnvironmentConfig) (filesExist : Bool)
    (w : EnvWorld) (entries : List ServiceEntry) :
    (∀ msg, startEnvironmentSpec cfg filesExist w entries = .fatalConfig msg →
      cfg.ComposeFilePaths = [] ∨ filesExist = false) ∧
    (cfg.ComposeFilePaths ≠ [] → filesExist = true →
      ((∀ msg, firstBeforeFailure w entries = some msg →
          startEnvironmentSpec cfg filesExist w entries = .failed (.beforeFailed msg) false) ∧
       (firstBeforeFailure w entries = none →
        ∀ e, composeUp (initialEnvironment cfg entries).compose w.op = .error e →
          startEnvironmentSpec cfg filesExist w entries = .failed (.fromOp e) (!cfg.NoShutdown)) ∧
       (firstBeforeFailure w entries = none →
        composeUp (initialEnvironment cfg entries).compose w.op = .ok () →
        ∀ e, invokeServiceHandlers (initialEnvironment cfg entries) w entries = .error e →
          startEnvironmentSpec cfg filesExist w entries = .failed e (!cfg.NoShutdown)) ∧
       (firstBeforeFailure w entries = none →
        composeUp (initialEnvironment cfg entries).compose w.op = .ok () →
        ∀ env1, invokeServiceHandlers (initialEnvironment cfg entries) w entries = .ok env1 →
          startEnvironmentSpec cfg filesExist w entries = .ready env1))) := by
  constructor
  · intro msg h
    by_cases hp : cfg.ComposeFilePaths = []
    · exact Or.inl hp
    · cases hfe : filesExist with
      | false => exact Or.inr rfl
      | true =>
        exfalso
        rw [hfe] at h
        simp only [startEnvironmentSpec, if_neg hp] at h
        rw [if_neg (by simp)] at h
        split at h
        · exact StartEnvResult.noConfusion h
        · split at h
          · exact StartEnvResult.noConfusion h
          · split at h
            · exact StartEnvResult.noConfusion h
            · exact StartEnvResult.noConfusion h
  · intro hp hf
    refine ⟨?_, ?_, ?_, ?_⟩
    · intro msg hb
      simp [startEnvironmentSpec, if_neg hp, hf, hb]
    · intro hb e hu
      simp [startEnvironmentSpec, if_neg hp, hf, hb, hu]
    · intro hb hu e hh
      simp [startEnvironmentSpec, if_neg hp, hf, hb, hu, hh]
    · intro hb hu env1 hh
      simp [startEnvironmentSpec, if_neg hp, hf, hb, hu, hh]

/-- Witness for the C8 theorem: a failing `Up` process surfaces as a returned
error with `Shutdown` triggered. -/
theorem startEnvironment_error_surface_witness :
    startEnvironmentSpec c8Config true c8UpFailWorld [plainEntry "redis"] =
      .failed (.fromOp (.procFailed "up")) (!c8Config.NoShutdown) :=
  ((startEnvironment_error_surface c8Config true c8UpFailWorld [plainEntry "redis"]).2
      (by decide) rfl).2.1 rfl (.procFailed "up") (by rfl)

end GoCompose
